import Mathlib

/-!
Verification development for the inventory-aware availability and booking
subsystem of the Foothills booking-platform backend.

The definitions below are a shallow embedding of the TypeScript source:
  - `src/utils/inventoryUtils.ts` (checkInventoryAvailability,
    updateInventoryAfterBooking, validateBookingDuration, bulkUpdateInventory)
  - `src/utils/bookingUtils.ts` (updateBookingStatus)
  - `src/controllers/serviceController.ts` (updateInventory, adjustInventory,
    checkAvailability)
  - `src/controllers/bookingController.ts` (createInventoryBooking, cancelBooking)

Dates are modelled as integers (milliseconds since epoch, or day indices for
the calendar path, as noted at each definition). Machine numbers in the source
are JavaScript numbers holding integers; they are modelled as `Int`.
-/

namespace Foothills

/-- Per-listing inventory record, embedded in the Service model
(`src/models/Service.ts`, `inventory` sub-document). -/
structure Inventory where
  totalUnits : Int
  availableUnits : Int
  minBookingDays : Int
  maxBookingDays : Int
deriving DecidableEq, Repr

/-- Booking lifecycle status (`src/models/Booking.ts`, `status` field). -/
inductive BookingStatus where
  | pending
  | confirmed
  | cancelled
  | completed
deriving DecidableEq, Repr

/-- A booking record (`src/models/Booking.ts`). `date` is the stored start
date, `endDate` is present for inventory-aware bookings, `units` is the
number of inventory units the booking consumes. -/
structure Booking where
  id : Nat
  serviceId : Nat
  date : Int
  endDate : Option Int
  units : Int
  status : BookingStatus
deriving DecidableEq, Repr

/-- The invariant stated in the spec for every listing inventory:
`0 ≤ availableUnits ≤ totalUnits`. -/
def invInvariant (inv : Inventory) : Prop :=
  0 ≤ inv.availableUnits ∧ inv.availableUnits ≤ inv.totalUnits

instance (inv : Inventory) : Decidable (invInvariant inv) := by
  unfold invInvariant; infer_instance

/-- The `action` argument of `updateInventoryAfterBooking`
(`src/utils/inventoryUtils.ts`). -/
inductive InvAction where
  | reserve
  | release
deriving DecidableEq, Repr

/-- Error raised by `updateInventoryAfterBooking` when a reserve exceeds the
available units (source message: insufficient inventory, reporting available
and requested counts). -/
inductive InvErr where
  | insufficientInventory (available requested : Int)
deriving DecidableEq, Repr

/-- Embedding of `updateInventoryAfterBooking` (`src/utils/inventoryUtils.ts`,
lines 74-122), restricted to its inventory mutation: reserve throws when
`availableUnits < units` and otherwise decrements; release sets
`availableUnits` to `min(totalUnits, availableUnits + units)`. Only the
`availableUnits` field is written back. -/
def updateInventoryAfterBooking (inv : Inventory) (action : InvAction)
    (units : Int) : Except InvErr Inventory :=
  match action with
  | .reserve =>
      if inv.availableUnits < units then
        .error (.insufficientInventory inv.availableUnits units)
      else
        .ok { inv with availableUnits := inv.availableUnits - units }
  | .release =>
      .ok { inv with availableUnits :=
              (min inv.totalUnits (inv.availableUnits + units)) }

/-- Embedding of the inventory mutation of `adjustInventory`
(`src/controllers/serviceController.ts`, lines 1069-1072):
`newAvailableUnits = max(0, min(totalUnits, availableUnits + adjustment))`. -/
def adjustInventory (inv : Inventory) (adjustment : Int) : Inventory :=
  { inv with availableUnits :=
      (max 0 (min inv.totalUnits (inv.availableUnits + adjustment))) }

/-- One step of the operation sequences quantified over in the invariant
claim: a reserve or release of a (nonnegative) unit count, or an admin
adjustment by an arbitrary integer delta. -/
inductive InvOp where
  | reserve (units : Nat)
  | release (units : Nat)
  | adjust (delta : Int)
deriving DecidableEq, Repr

/-- Apply one operation to an inventory state. A failed reserve leaves the
state unchanged (the source throws before writing anything back). -/
def applyInvOp (inv : Inventory) (op : InvOp) : Inventory :=
  match op with
  | .reserve u =>
      match updateInventoryAfterBooking inv .reserve u with
      | .ok inv2 => inv2
      | .error _ => inv
  | .release u =>
      match updateInventoryAfterBooking inv .release u with
      | .ok inv2 => inv2
      | .error _ => inv
  | .adjust d => adjustInventory inv d

/-- Apply a finite sequence of operations left to right. -/
def applyInvOps (inv : Inventory) (ops : List InvOp) : Inventory :=
  ops.foldl applyInvOp inv

theorem applyInvOp_invariant (inv : Inventory) (h : invInvariant inv)
    (op : InvOp) : invInvariant (applyInvOp inv op) := by
  obtain ⟨h0, h1⟩ := h
  cases op with
  | reserve u =>
      by_cases hc : inv.availableUnits < (u : Int) <;>
        simp [applyInvOp, updateInventoryAfterBooking, invInvariant, hc] <;>
        omega
  | release u =>
      simp [applyInvOp, updateInventoryAfterBooking, invInvariant] <;> omega
  | adjust d =>
      simp [applyInvOp, adjustInventory, invInvariant] <;> omega

theorem applyInvOps_invariant (ops : List InvOp) (inv : Inventory)
    (h : invInvariant inv) : invInvariant (applyInvOps inv ops) := by
  induction ops generalizing inv with
  | nil => exact h
  | cons op rest ih =>
      exact ih (applyInvOp inv op) (applyInvOp_invariant inv h op)

/-- Result record of `checkInventoryAvailability`
(`src/utils/inventoryUtils.ts`). `conflictingBookings` is absent on the
early return taken when `requestedUnits > totalUnits`. -/
structure AvailabilityResult where
  available : Bool
  availableUnits : Int
  totalUnits : Int
  conflictingBookings : Option (List Booking)
deriving DecidableEq, Repr

/-- The Mongo filter of `checkInventoryAvailability`: bookings of this
listing whose stored `date` lies in `[startDate, endDate]` inclusive and
whose status is pending or confirmed. -/
def bookingMatches (serviceId : Nat) (startDate endDate : Int)
    (b : Booking) : Bool :=
  b.serviceId == serviceId && startDate ≤ b.date && b.date ≤ endDate &&
    (b.status == .pending || b.status == .confirmed)

/-- Embedding of `checkInventoryAvailability` (`src/utils/inventoryUtils.ts`,
lines 9-69) for a listing whose inventory is configured. The ledger is the
list of all stored bookings. Each matching booking is summed as 1 unit by a
fold, exactly as the source's `reduce((sum) => sum + 1, 0)`. -/
def checkInventoryAvailability (ledger : List Booking) (serviceId : Nat)
    (inv : Inventory) (startDate endDate : Int) (requestedUnits : Int) :
    AvailabilityResult :=
  if requestedUnits > inv.totalUnits then
    { available := false
      availableUnits := inv.availableUnits
      totalUnits := inv.totalUnits
      conflictingBookings := none }
  else
    let conflicting := ledger.filter (bookingMatches serviceId startDate endDate)
    let totalBookedUnits : Int := conflicting.foldl (fun sum _ => sum + 1) 0
    let availableUnitsForRange := inv.totalUnits - totalBookedUnits
    { available := decide (availableUnitsForRange ≥ requestedUnits)
      availableUnits := max 0 availableUnitsForRange
      totalUnits := inv.totalUnits
      conflictingBookings := some conflicting }

/-- The structured reason a duration validation fails. The source reports
these as message strings (minimum/maximum booking duration). -/
inductive DurationMsg where
  | notConfigured
  | tooShort
  | tooLong
deriving DecidableEq, Repr

/-- Result record of `validateBookingDuration`
(`src/utils/inventoryUtils.ts`). -/
structure DurationResult where
  valid : Bool
  message : Option DurationMsg
  actualDays : Int
  minDays : Int
  maxDays : Int
deriving DecidableEq, Repr

/-- Milliseconds per day, the source's `1000 * 60 * 60 * 24`. -/
def msPerDay : Int := 1000 * 60 * 60 * 24

/-- Ceiling division of integers for a positive divisor, the model of
JavaScript `Math.ceil(a / b)` at integer arguments. -/
def ceilDiv (a b : Int) : Int := -(Int.ediv (-a) b)

/-- Embedding of `validateBookingDuration` (`src/utils/inventoryUtils.ts`,
lines 127-178). Dates are in milliseconds;
`actualDays = ceil((endDate - startDate) / msPerDay)`. -/
def validateBookingDuration (inventory : Option Inventory)
    (startMs endMs : Int) : DurationResult :=
  match inventory with
  | none =>
      { valid := false, message := some .notConfigured
        actualDays := 0, minDays := 0, maxDays := 0 }
  | some inv =>
      let actualDays := ceilDiv (endMs - startMs) msPerDay
      let minDays := inv.minBookingDays
      let maxDays := inv.maxBookingDays
      if actualDays < minDays then
        { valid := false, message := some .tooShort
          actualDays := actualDays, minDays := minDays, maxDays := maxDays }
      else if actualDays > maxDays then
        { valid := false, message := some .tooLong
          actualDays := actualDays, minDays := minDays, maxDays := maxDays }
      else
        { valid := true, message := none
          actualDays := actualDays, minDays := minDays, maxDays := maxDays }

/-- Errors of the booking status update (`src/utils/bookingUtils.ts`,
`updateBookingStatus`): off-table transition, completing a booking whose
date has not occurred, cancelling a completed booking. -/
inductive StatusErr where
  | invalidTransition (src dst : BookingStatus)
  | notYetOccurred
  | cannotCancelCompleted
deriving DecidableEq, Repr

/-- The source's `validTransitions` table (`src/utils/bookingUtils.ts`,
lines 150-155). -/
def validTransitions (s : BookingStatus) : List BookingStatus :=
  match s with
  | .pending => [.confirmed, .cancelled]
  | .confirmed => [.completed, .cancelled]
  | .cancelled => []
  | .completed => []

/-- Embedding of `updateBookingStatus` (`src/utils/bookingUtils.ts`,
lines 128-170) followed by the status write the controller performs on
success: validate the transition against the table, then the
completed-in-the-future guard (`booking.date > now`), then the defensive
cancel-of-completed guard; on success return the booking with the new
status, on failure return the error (the booking is not written). -/
def updateBookingStatus (b : Booking) (newStatus : BookingStatus)
    (now : Int) : Except StatusErr Booking :=
  if ¬ ((validTransitions b.status).contains newStatus) then
    .error (.invalidTransition b.status newStatus)
  else if newStatus = .completed ∧ now < b.date then
    .error .notYetOccurred
  else if newStatus = .cancelled ∧ b.status = .completed then
    .error .cannotCancelCompleted
  else
    .ok { b with status := newStatus }

/-- Embedding of the validation and write of `updateInventory`
(`src/controllers/serviceController.ts`, lines 936-983): rejects
`availableUnits > totalUnits` and `minBookingDays > maxBookingDays` before
persisting, and otherwise replaces the whole inventory record. -/
def updateInventory (totalUnits availableUnits minBookingDays
    maxBookingDays : Int) : Except String Inventory :=
  if availableUnits > totalUnits then
    .error "Available units cannot exceed total units"
  else if minBookingDays > maxBookingDays then
    .error "Minimum booking days cannot exceed maximum booking days"
  else
    .ok { totalUnits := totalUnits, availableUnits := availableUnits
          minBookingDays := minBookingDays, maxBookingDays := maxBookingDays }

/-- One item of a bulk inventory update (`src/utils/inventoryUtils.ts`,
`bulkUpdateInventory`): an optional new value per field. -/
structure InvUpdate where
  totalUnits? : Option Int
  availableUnits? : Option Int
  minBookingDays? : Option Int
  maxBookingDays? : Option Int
deriving DecidableEq, Repr

/-- The write one bulk-update item performs on a found listing
(`src/utils/inventoryUtils.ts`, lines 235-277): each provided field is set
via dot-keyed `findByIdAndUpdate`, with no validation of the resulting
configuration. -/
def applyBulkItem (inv : Inventory) (u : InvUpdate) : Inventory :=
  { totalUnits := u.totalUnits?.getD inv.totalUnits
    availableUnits := u.availableUnits?.getD inv.availableUnits
    minBookingDays := u.minBookingDays?.getD inv.minBookingDays
    maxBookingDays := u.maxBookingDays?.getD inv.maxBookingDays }

/-- Embedding of `bulkUpdateInventory` (`src/utils/inventoryUtils.ts`,
lines 235-277) over a store of listings keyed by id: items whose listing
id is absent are reported in `errors`; items whose listing exists are
written unconditionally and counted in `updated`. -/
def bulkUpdateInventory (store : List (Nat × Inventory))
    (updates : List (Nat × InvUpdate)) :
    List (Nat × Inventory) × Nat × List Nat :=
  updates.foldl
    (fun acc item =>
      let (st, updated, errors) := acc
      let (sid, u) := item
      match st.find? (fun p => p.1 == sid) with
      | none => (st, updated, errors ++ [sid])
      | some _ =>
          (st.map (fun p => if p.1 == sid then (p.1, applyBulkItem p.2 u) else p),
           updated + 1, errors))
    (store, 0, [])

/-- Walk of the calendar range-availability loop
(`src/controllers/serviceController.ts`, `checkAvailability`,
lines 625-639), at day granularity: from `current` up to but excluding
`checkOut`, collect each day that is in the unavailable-dates set. -/
def walkConflicts (unavailableDates : List Int) (current checkOut : Int) :
    List Int :=
  if _h : current < checkOut then
    (if unavailableDates.contains current then [current] else []) ++
      walkConflicts unavailableDates (current + 1) checkOut
  else
    []
termination_by (checkOut - current).toNat
decreasing_by
  simp_wf
  omega

/-- Embedding of `checkAvailability` (`src/controllers/serviceController.ts`,
lines 581-663) after date parsing, at day granularity: fails when
`checkIn >= checkOut`, else walks the half-open range `[checkIn, checkOut)`,
collects conflicting dates and reports availability iff none conflict. -/
def checkAvailability (unavailableDates : List Int) (checkIn checkOut : Int) :
    Except String (Bool × List Int) :=
  if checkIn ≥ checkOut then
    .error "Check-out date must be after check-in date"
  else
    let conflictingDates := walkConflicts unavailableDates checkIn checkOut
    .ok (conflictingDates.length == 0, conflictingDates)

/-- The state the reservation manager acts on: one listing's inventory
record plus the booking ledger (which may also hold other listings'
bookings). -/
structure SystemState where
  inventory : Inventory
  ledger : List Booking
deriving DecidableEq, Repr

/-- Errors of `createInventoryBooking`
(`src/controllers/bookingController.ts`). -/
inductive CreateErr where
  | invalidDuration (msg : DurationMsg)
  | insufficientAvailability (available requested : Int)
  | insufficientInventory (available requested : Int)
deriving DecidableEq, Repr

/-- The booking record `createInventoryBooking` persists: stored `date` is
the start date, `endDate` and `units` are stored, status is pending. -/
def newInventoryBooking (newId serviceId : Nat) (startDate endDate
    units : Int) : Booking :=
  { id := newId, serviceId := serviceId, date := startDate
    endDate := some endDate, units := units, status := .pending }

/-- The success payload of `createInventoryBooking`: the created booking id,
the reserved unit count, and the reported remaining count, which the source
computes as `availability.availableUnits - units`. -/
structure CreateResult where
  bookingId : Nat
  reserved : Int
  remaining : Int
deriving DecidableEq, Repr

/-- Embedding of `createInventoryBooking`
(`src/controllers/bookingController.ts`, lines 129-199) for a listing with
a configured inventory: validate duration, check availability against the
ledger, persist the pending booking, then reserve units. The booking is
persisted before the reserve step; when the reserve throws, the error
propagates but the already-persisted booking stays in the ledger. -/
def createInventoryBooking (st : SystemState) (serviceId newId : Nat)
    (startDate endDate units : Int) :
    Except CreateErr CreateResult × SystemState :=
  let dv := validateBookingDuration (some st.inventory) startDate endDate
  if dv.valid = false then
    (.error (.invalidDuration (dv.message.getD .notConfigured)), st)
  else
    let availability := checkInventoryAvailability st.ledger serviceId
      st.inventory startDate endDate units
    if availability.available = false then
      (.error (.insufficientAvailability availability.availableUnits units), st)
    else
      let booking := newInventoryBooking newId serviceId startDate endDate units
      let st1 : SystemState := { st with ledger := st.ledger ++ [booking] }
      match updateInventoryAfterBooking st1.inventory .reserve units with
      | .error (.insufficientInventory a r) =>
          (.error (.insufficientInventory a r), st1)
      | .ok inv2 =>
          (.ok { bookingId := newId, reserved := units
                 remaining := availability.availableUnits - units },
           { st1 with inventory := inv2 })

/-- Errors of `cancelBooking` (`src/controllers/bookingController.ts`). -/
inductive CancelErr where
  | bookingNotFound
  | alreadyCancelled
  | cannotCancelCompleted
deriving DecidableEq, Repr

/-- Embedding of `cancelBooking` (`src/controllers/bookingController.ts`,
lines 256-295), after authorization: reject when already cancelled or
completed; release the booking's units when it carries a positive count;
set the status to cancelled. -/
def cancelBooking (st : SystemState) (bookingId : Nat) :
    Except CancelErr SystemState :=
  match st.ledger.find? (fun b => b.id == bookingId) with
  | none => .error .bookingNotFound
  | some b =>
      if b.status = .cancelled then .error .alreadyCancelled
      else if b.status = .completed then .error .cannotCancelCompleted
      else
        let inv2 :=
          if 0 < b.units then
            match updateInventoryAfterBooking st.inventory .release b.units with
            | .ok i => i
            | .error _ => st.inventory
          else st.inventory
        .ok { inventory := inv2
              ledger := st.ledger.map (fun c =>
                if c.id == bookingId then { c with status := .cancelled } else c) }

/-- Claim C1: starting from any inventory state with
`0 ≤ availableUnits ≤ totalUnits`, every finite sequence of reserve/release
operations and admin adjustments preserves `0 ≤ availableUnits ≤ totalUnits`;
a reserve of `u` units fails exactly when `availableUnits < u` and otherwise
yields `availableUnits - u ≥ 0`, a release of `u` yields
`min(totalUnits, availableUnits + u)`, and an adjustment by `d` yields
`max(0, min(totalUnits, availableUnits + d))`. -/
theorem inventory_invariant_preserved (inv : Inventory) (hinv : invInvariant inv) :
    (∀ ops : List InvOp, invInvariant (applyInvOps inv ops)) ∧
    (∀ u : Nat, inv.availableUnits < (u : Int) →
      updateInventoryAfterBooking inv .reserve u =
        .error (.insufficientInventory inv.availableUnits u)) ∧
    (∀ u : Nat, (u : Int) ≤ inv.availableUnits →
      updateInventoryAfterBooking inv .reserve u =
        .ok { inv with availableUnits := inv.availableUnits - u } ∧
      0 ≤ inv.availableUnits - (u : Int)) ∧
    (∀ u : Nat, updateInventoryAfterBooking inv .release u =
      .ok { inv with availableUnits :=
              (min inv.totalUnits (inv.availableUnits + u)) }) ∧
    (∀ d : Int, (adjustInventory inv d).availableUnits =
      max 0 (min inv.totalUnits (inv.availableUnits + d))) := by
  obtain ⟨h0, h1⟩ := hinv
  refine ⟨fun ops => applyInvOps_invariant ops inv ⟨h0, h1⟩, ?_, ?_, ?_, ?_⟩
  · intro u hu
    simp [updateInventoryAfterBooking, hu]
  · intro u hu
    refine ⟨?_, by omega⟩
    simp [updateInventoryAfterBooking]
    omega
  · intro u
    simp [updateInventoryAfterBooking]
  · intro d
    simp [adjustInventory]

theorem inventory_invariant_preserved_witness :
    invInvariant (applyInvOps ⟨3, 2, 1, 30⟩
      [.reserve 2, .release 1, .adjust (-7)]) ∧
    updateInventoryAfterBooking ⟨3, 2, 1, 30⟩ .reserve (3 : Nat) =
      .error (.insufficientInventory 2 3) := by
  have h := inventory_invariant_preserved ⟨3, 2, 1, 30⟩ (by constructor <;> decide)
  refine ⟨h.1 _, ?_⟩
  have h2 := h.2.1 3 (by norm_num)
  simpa using h2

/-- Claim C3: for a unit count `u ≥ 1`, a reserve fails with the
insufficient-inventory error exactly when `availableUnits < u` and on
success decrements `availableUnits` by exactly `u`; a release never fails
and sets `availableUnits` to `min(totalUnits, availableUnits + u)`. -/
theorem reserve_release_spec (inv : Inventory) (u : Int) (hu : 1 ≤ u) :
    ((∃ err, updateInventoryAfterBooking inv .reserve u = .error err) ↔
      inv.availableUnits < u) ∧
    (inv.availableUnits < u →
      updateInventoryAfterBooking inv .reserve u =
        .error (.insufficientInventory inv.availableUnits u)) ∧
    (u ≤ inv.availableUnits →
      updateInventoryAfterBooking inv .reserve u =
        .ok { inv with availableUnits := inv.availableUnits - u }) ∧
    (updateInventoryAfterBooking inv .release u =
      .ok { inv with availableUnits :=
              (min inv.totalUnits (inv.availableUnits + u)) }) := by
  by_cases hc : inv.availableUnits < u
  · refine ⟨⟨fun _ => hc, fun _ => ?_⟩, fun _ => ?_, fun hle => by omega, ?_⟩ <;>
      simp [updateInventoryAfterBooking, hc]
  · refine ⟨⟨fun ⟨err, herr⟩ => ?_, fun h => absurd h hc⟩, fun h => absurd h hc,
      fun _ => ?_, ?_⟩
    · simp [updateInventoryAfterBooking, hc] at herr
    · simp [updateInventoryAfterBooking, hc]
    · simp [updateInventoryAfterBooking]

theorem reserve_release_spec_witness :
    updateInventoryAfterBooking ⟨5, 2, 1, 30⟩ .reserve 3 =
      .error (.insufficientInventory 2 3) ∧
    updateInventoryAfterBooking ⟨5, 2, 1, 30⟩ .reserve 2 =
      .ok ⟨5, 0, 1, 30⟩ ∧
    updateInventoryAfterBooking ⟨5, 4, 1, 30⟩ .release 3 =
      .ok ⟨5, 5, 1, 30⟩ := by
  have h3 := reserve_release_spec ⟨5, 2, 1, 30⟩ 3 (by norm_num)
  have h2 := reserve_release_spec ⟨5, 2, 1, 30⟩ 2 (by norm_num)
  have hr := reserve_release_spec ⟨5, 4, 1, 30⟩ 3 (by norm_num)
  refine ⟨h3.2.1 (by norm_num), ?_, ?_⟩
  · have := h2.2.2.1 (by norm_num)
    simpa using this
  · have := hr.2.2.2
    simpa using this

/-- Claim C6: from an inventory state with `0 ≤ availableUnits ≤ totalUnits`
and a unit count `u ≤ availableUnits`, a successful reserve of `u` followed
by a release of `u` (as cancellation performs) restores the inventory to
exactly its pre-reservation state. -/
theorem reserve_release_roundtrip (inv : Inventory) (hinv : invInvariant inv)
    (u : Int) (hu : 0 ≤ u) (hle : u ≤ inv.availableUnits) :
    ∃ inv2, updateInventoryAfterBooking inv .reserve u = .ok inv2 ∧
      inv2.availableUnits = inv.availableUnits - u ∧
      updateInventoryAfterBooking inv2 .release u = .ok inv := by
  obtain ⟨h0, h1⟩ := hinv
  refine ⟨{ inv with availableUnits := inv.availableUnits - u }, ?_, rfl, ?_⟩
  · simp [updateInventoryAfterBooking]
    omega
  · obtain ⟨t, a, mn, mx⟩ := inv
    simp only [updateInventoryAfterBooking]
    congr 1
    simp at h1 ⊢
    omega

theorem reserve_release_roundtrip_witness :
    ∃ inv2, updateInventoryAfterBooking ⟨5, 3, 1, 30⟩ .reserve 2 = .ok inv2 ∧
      inv2.availableUnits = 1 ∧
      updateInventoryAfterBooking inv2 .release 2 = .ok ⟨5, 3, 1, 30⟩ := by
  obtain ⟨inv2, hres, havail, hrel⟩ :=
    reserve_release_roundtrip ⟨5, 3, 1, 30⟩ (by constructor <;> decide) 2
      (by norm_num) (by norm_num)
  exact ⟨inv2, hres, by simpa using havail, hrel⟩

theorem foldl_add_one (l : List Booking) (n : Int) :
    l.foldl (fun sum _ => sum + 1) n = n + l.length := by
  induction l generalizing n with
  | nil => simp
  | cons b t ih =>
      simp only [List.foldl_cons, ih, List.length_cons]
      push_cast
      ring

theorem bookingMatches_iff (sid : Nat) (s e : Int) (b : Booking) :
    bookingMatches sid s e b = true ↔
      (b.serviceId = sid ∧ s ≤ b.date ∧ b.date ≤ e ∧
        (b.status = .pending ∨ b.status = .confirmed)) := by
  simp [bookingMatches, and_assoc]

/-- Claim C2: with a configured inventory and `requestedUnits ≤ totalUnits`,
the availability check returns as `conflictingBookings` exactly the stored
bookings of the listing whose `date` lies in `[startDate, endDate]`
inclusive with status pending or confirmed (never cancelled or completed),
counts each such booking as exactly one committed unit regardless of its
own `units` field, and returns
`available = (totalUnits - committedUnits ≥ requestedUnits)` with
`availableUnits = max(0, totalUnits - committedUnits)`. -/
theorem availability_check_spec (ledger : List Booking) (serviceId : Nat)
    (inv : Inventory) (s e requestedUnits : Int)
    (hreq : requestedUnits ≤ inv.totalUnits) :
    ∃ ms : List Booking,
      checkInventoryAvailability ledger serviceId inv s e requestedUnits =
        { available := decide (inv.totalUnits - (ms.length : Int) ≥ requestedUnits)
          availableUnits := max 0 (inv.totalUnits - (ms.length : Int))
          totalUnits := inv.totalUnits
          conflictingBookings := some ms } ∧
      (∀ b : Booking, b ∈ ms ↔ b ∈ ledger ∧ b.serviceId = serviceId ∧
        s ≤ b.date ∧ b.date ≤ e ∧
        (b.status = .pending ∨ b.status = .confirmed)) ∧
      (∀ b ∈ ms, b.status ≠ .cancelled ∧ b.status ≠ .completed) := by
  refine ⟨ledger.filter (bookingMatches serviceId s e), ?_, ?_, ?_⟩
  · have hnot : ¬ (requestedUnits > inv.totalUnits) := by omega
    simp only [checkInventoryAvailability, if_neg hnot, foldl_add_one,
      zero_add]
  · intro b
    rw [List.mem_filter, bookingMatches_iff]
  · intro b hb
    rw [List.mem_filter, bookingMatches_iff] at hb
    rcases hb.2.2.2.2 with h | h <;> simp [h]

theorem availability_check_spec_witness :
    ∃ ms : List Booking,
      checkInventoryAvailability
        [⟨1, 0, 10, none, 1, .pending⟩, ⟨2, 0, 12, none, 1, .confirmed⟩,
         ⟨3, 0, 11, none, 1, .cancelled⟩, ⟨4, 7, 11, none, 1, .pending⟩,
         ⟨5, 0, 25, none, 1, .confirmed⟩]
        0 ⟨3, 3, 1, 30⟩ 10 20 2 =
        { available := decide ((3 : Int) - (ms.length : Int) ≥ 2)
          availableUnits := max 0 ((3 : Int) - (ms.length : Int))
          totalUnits := 3
          conflictingBookings := some ms } ∧
      (∀ b ∈ ms, b.status ≠ .cancelled ∧ b.status ≠ .completed) := by
  obtain ⟨ms, hrec, _hmem, hstat⟩ :=
    availability_check_spec
      [⟨1, 0, 10, none, 1, .pending⟩, ⟨2, 0, 12, none, 1, .confirmed⟩,
       ⟨3, 0, 11, none, 1, .cancelled⟩, ⟨4, 7, 11, none, 1, .pending⟩,
       ⟨5, 0, 25, none, 1, .confirmed⟩]
      0 ⟨3, 3, 1, 30⟩ 10 20 2 (by norm_num)
  exact ⟨ms, hrec, hstat⟩

/-- The transition table exactly as the claim states it: from pending to
confirmed or cancelled, from confirmed to completed or cancelled, nothing
else. -/
def transitionAllowed (s sNew : BookingStatus) : Prop :=
  (s = .pending ∧ (sNew = .confirmed ∨ sNew = .cancelled)) ∨
  (s = .confirmed ∧ (sNew = .completed ∨ sNew = .cancelled))

instance (s sNew : BookingStatus) : Decidable (transitionAllowed s sNew) := by
  unfold transitionAllowed; infer_instance

/-- Claim C4: the status update permits a change exactly when the transition
is in the table (pending to confirmed/cancelled, confirmed to
completed/cancelled) and, for a transition to completed, the booking date is
not in the future; every permitted update writes exactly the new status and
every off-table request is rejected with the invalid-transition error,
leaving the booking unchanged (no booking is written on failure). -/
theorem status_transition_spec (b : Booking) (ns : BookingStatus) (now : Int) :
    ((∃ b2, updateBookingStatus b ns now = .ok b2) ↔
      (transitionAllowed b.status ns ∧ ¬ (ns = .completed ∧ now < b.date))) ∧
    (∀ b2, updateBookingStatus b ns now = .ok b2 →
      b2 = { b with status := ns }) ∧
    (¬ transitionAllowed b.status ns →
      updateBookingStatus b ns now = .error (.invalidTransition b.status ns)) := by
  obtain ⟨id, sid, date, ed, un, st⟩ := b
  by_cases hd : now < date <;>
    cases st <;> cases ns <;>
      simp [updateBookingStatus, validTransitions, transitionAllowed, hd]

/-- Claim C5: the duration validator computes
`actualDays = ceil((endDate - startDate) / 1 day)`, fails as too short when
`actualDays < minBookingDays`, as too long when
`actualDays > maxBookingDays`, and otherwise succeeds returning
`actualDays`; when the dates are equal, `actualDays = 0` and (because the
policy keeps `minBookingDays ≥ 1`) the validation always fails. -/
theorem duration_validator_spec (inv : Inventory) (s e : Int) :
    (validateBookingDuration (some inv) s e).actualDays =
      ceilDiv (e - s) msPerDay ∧
    (ceilDiv (e - s) msPerDay < inv.minBookingDays →
      validateBookingDuration (some inv) s e =
        { valid := false, message := some .tooShort
          actualDays := ceilDiv (e - s) msPerDay
          minDays := inv.minBookingDays, maxDays := inv.maxBookingDays }) ∧
    (inv.minBookingDays ≤ inv.maxBookingDays →
      inv.maxBookingDays < ceilDiv (e - s) msPerDay →
      validateBookingDuration (some inv) s e =
        { valid := false, message := some .tooLong
          actualDays := ceilDiv (e - s) msPerDay
          minDays := inv.minBookingDays, maxDays := inv.maxBookingDays }) ∧
    (inv.minBookingDays ≤ ceilDiv (e - s) msPerDay →
      ceilDiv (e - s) msPerDay ≤ inv.maxBookingDays →
      validateBookingDuration (some inv) s e =
        { valid := true, message := none
          actualDays := ceilDiv (e - s) msPerDay
          minDays := inv.minBookingDays, maxDays := inv.maxBookingDays }) ∧
    (s = e → (validateBookingDuration (some inv) s e).actualDays = 0) ∧
    (1 ≤ inv.minBookingDays → s = e →
      (validateBookingDuration (some inv) s e).valid = false) := by
  have hzero : ceilDiv 0 msPerDay = 0 := by decide
  refine ⟨?_, ?_, ?_, ?_, ?_, ?_⟩
  · simp only [validateBookingDuration]
    split
    · rfl
    · split <;> rfl
  · intro h
    simp [validateBookingDuration, h]
  · intro h1 h2
    rw [validateBookingDuration, if_neg (by omega), if_pos (by omega)]
  · intro h1 h2
    rw [validateBookingDuration, if_neg (by omega), if_neg (by omega)]
  · intro h
    subst h
    simp only [validateBookingDuration, sub_self, hzero]
    split
    · rfl
    · split <;> rfl
  · intro hmin h
    subst h
    simp only [validateBookingDuration, sub_self, hzero]
    rw [if_pos (by omega)]

theorem status_transition_spec_witness :
    (∃ b2, updateBookingStatus ⟨1, 0, 5, none, 1, .confirmed⟩ .completed 9 =
      .ok b2) ∧
    updateBookingStatus ⟨1, 0, 5, none, 1, .cancelled⟩ .confirmed 9 =
      .error (.invalidTransition .cancelled .confirmed) ∧
    ¬ (∃ b2, updateBookingStatus ⟨1, 0, 15, none, 1, .confirmed⟩ .completed 9 =
      .ok b2) := by
  have h1 := status_transition_spec ⟨1, 0, 5, none, 1, .confirmed⟩ .completed 9
  have h2 := status_transition_spec ⟨1, 0, 5, none, 1, .cancelled⟩ .confirmed 9
  have h3 := status_transition_spec ⟨1, 0, 15, none, 1, .confirmed⟩ .completed 9
  refine ⟨h1.1.mpr (by constructor <;> decide), h2.2.2 (by decide), ?_⟩
  intro hex
  have := h3.1.mp hex
  revert this
  decide

theorem duration_validator_spec_witness :
    validateBookingDuration (some ⟨3, 3, 2, 5⟩) 0 msPerDay =
      { valid := false, message := some .tooShort
        actualDays := 1, minDays := 2, maxDays := 5 } ∧
    validateBookingDuration (some ⟨3, 3, 2, 5⟩) 0 (6 * msPerDay) =
      { valid := false, message := some .tooLong
        actualDays := 6, minDays := 2, maxDays := 5 } ∧
    validateBookingDuration (some ⟨3, 3, 2, 5⟩) 0 (3 * msPerDay) =
      { valid := true, message := none
        actualDays := 3, minDays := 2, maxDays := 5 } ∧
    (validateBookingDuration (some ⟨3, 3, 2, 5⟩) 7 7).valid = false := by
  have h1 := duration_validator_spec ⟨3, 3, 2, 5⟩ 0 msPerDay
  have h6 := duration_validator_spec ⟨3, 3, 2, 5⟩ 0 (6 * msPerDay)
  have h3 := duration_validator_spec ⟨3, 3, 2, 5⟩ 0 (3 * msPerDay)
  have h0 := duration_validator_spec ⟨3, 3, 2, 5⟩ 7 7
  have e1 : ceilDiv (msPerDay - 0) msPerDay = 1 := by decide
  have e6 : ceilDiv (6 * msPerDay - 0) msPerDay = 6 := by decide
  have e3 : ceilDiv (3 * msPerDay - 0) msPerDay = 3 := by decide
  refine ⟨?_, ?_, ?_, h0.2.2.2.2.2 (by norm_num) rfl⟩
  · have := h1.2.1 (by rw [e1]; norm_num)
    rw [this, e1]
  · have := h6.2.2.1 (by decide) (by rw [e6]; norm_num)
    rw [this, e6]
  · have := h3.2.2.2.1 (by rw [e3]; norm_num) (by rw [e3]; norm_num)
    rw [this, e3]

/-- Claim C7 counterexample: a bulk-update item that sets
`availableUnits = 5` on a listing with `totalUnits = 2` is persisted with
no error reported, leaving an inventory that violates
`availableUnits ≤ totalUnits` — the bulk path performs no configuration
validation, contrary to the claim that every such write fails before
persistence. -/
theorem bulk_update_unvalidated_counterexample :
    bulkUpdateInventory [(0, ⟨2, 2, 1, 30⟩)] [(0, ⟨none, some 5, none, none⟩)] =
      ([(0, ⟨2, 5, 1, 30⟩)], 1, []) ∧
    ¬ invInvariant ⟨2, 5, 1, 30⟩ := by
  exact ⟨rfl, by decide⟩

/-- Claim C7 as amended: the single inventory update validates — a write
with `availableUnits > totalUnits` or `minBookingDays > maxBookingDays`
fails with a configuration error and persists nothing, and a valid write
persists exactly the given fields; the admin adjustment clamps
`availableUnits` into `[0, totalUnits]` and so never persists a violating
value; but a bulk-update item on an existing listing is persisted
unconditionally, with no configuration validation and no error. -/
theorem inventory_write_validation (t a mn mx : Int) (inv : Inventory)
    (sid : Nat) :
    ((a > t ∨ mn > mx) → ∃ msg, updateInventory t a mn mx = .error msg) ∧
    (a ≤ t → mn ≤ mx → updateInventory t a mn mx = .ok ⟨t, a, mn, mx⟩) ∧
    (∀ d : Int, 0 ≤ inv.totalUnits →
      0 ≤ (adjustInventory inv d).availableUnits ∧
      (adjustInventory inv d).availableUnits ≤ (adjustInventory inv d).totalUnits) ∧
    (∀ u : InvUpdate,
      bulkUpdateInventory [(sid, inv)] [(sid, u)] =
        ([(sid, applyBulkItem inv u)], 1, [])) := by
  refine ⟨?_, ?_, ?_, ?_⟩
  · intro h
    rcases h with h | h
    · exact ⟨"Available units cannot exceed total units",
        by simp [updateInventory, h]⟩
    · by_cases ha : a > t
      · exact ⟨"Available units cannot exceed total units",
          by simp [updateInventory, ha]⟩
      · exact ⟨"Minimum booking days cannot exceed maximum booking days",
          by simp [updateInventory, ha, h]⟩
  · intro h1 h2
    rw [updateInventory, if_neg (by omega), if_neg (by omega)]
  · intro d ht
    simp [adjustInventory]
    omega
  · intro u
    simp [bulkUpdateInventory, List.find?]

theorem inventory_write_validation_witness :
    (∃ msg, updateInventory 2 5 1 30 = .error msg) ∧
    updateInventory 5 3 2 10 = .ok ⟨5, 3, 2, 10⟩ ∧
    (0 ≤ (adjustInventory ⟨4, 1, 1, 30⟩ 99).availableUnits ∧
      (adjustInventory ⟨4, 1, 1, 30⟩ 99).availableUnits ≤
        (adjustInventory ⟨4, 1, 1, 30⟩ 99).totalUnits) ∧
    bulkUpdateInventory [(3, ⟨2, 2, 1, 30⟩)] [(3, ⟨none, some 5, none, none⟩)] =
      ([(3, ⟨2, 5, 1, 30⟩)], 1, []) := by
  have h1 := inventory_write_validation 2 5 1 30 ⟨4, 1, 1, 30⟩ 3
  have h2 := inventory_write_validation 5 3 2 10 ⟨4, 1, 1, 30⟩ 3
  have h3 := inventory_write_validation 2 2 1 30 ⟨2, 2, 1, 30⟩ 3
  refine ⟨h1.1 (by norm_num), h2.2.1 (by norm_num) (by norm_num),
    h1.2.2.1 99 (by norm_num), ?_⟩
  have := h3.2.2.2 ⟨none, some 5, none, none⟩
  simpa using this

/-- Claim C8 counterexample: a listing whose counter is out of sync with
the ledger (counter 1, total 5, empty ledger): the creation of a 1-unit
booking succeeds, the counter after the reserve decrement is 0, but the
response reports remaining = 4, the ledger-derived availability minus the
units — not the post-decrement counter. -/
theorem create_remaining_counterexample :
    (createInventoryBooking ⟨⟨5, 1, 1, 30⟩, []⟩ 0 1 0 msPerDay 1).1 =
      .ok ⟨1, 1, 4⟩ ∧
    (createInventoryBooking
      ⟨⟨5, 1, 1, 30⟩, []⟩ 0 1 0 msPerDay 1).2.inventory.availableUnits = 0 ∧
    (4 : Int) ≠ 0 := by
  refine ⟨rfl, rfl, by norm_num⟩

/-- Claim C8 as amended: a successful inventory-aware creation of `u` units
reports `remaining = availability.availableUnits - u`, where
`availability.availableUnits` is the ledger-derived
`max(0, totalUnits - committedUnits)` of the pre-creation availability
check; the listing counter itself is decremented by `u`, and the reported
value coincides with the post-decrement counter exactly when the counter
agreed with the ledger-derived availability beforehand. -/
theorem create_remaining_reports_ledger_availability (st : SystemState)
    (sid nid : Nat) (s e u : Int) (res : CreateResult) (st2 : SystemState)
    (h : createInventoryBooking st sid nid s e u = (.ok res, st2)) :
    res.remaining =
      (checkInventoryAvailability st.ledger sid st.inventory s e u).availableUnits
        - u ∧
    st2.inventory.availableUnits = st.inventory.availableUnits - u ∧
    (res.remaining = st2.inventory.availableUnits ↔
      (checkInventoryAvailability st.ledger sid st.inventory s e u).availableUnits =
        st.inventory.availableUnits) := by
  simp only [createInventoryBooking] at h
  split at h
  · simp at h
  · split at h
    · simp at h
    · split at h
      · simp at h
      · rename_i inv2 heq
        rw [Prod.mk.injEq] at h
        obtain ⟨hres, hst⟩ := h
        rw [Except.ok.injEq] at hres
        simp only [updateInventoryAfterBooking] at heq
        split at heq
        · exact absurd heq (by simp)
        · rw [Except.ok.injEq] at heq
          subst hres
          subst hst
          refine ⟨rfl, ?_, ?_⟩
          · rw [← heq]
          · rw [← heq]
            dsimp only
            constructor <;> intro hx <;> omega

theorem create_remaining_reports_ledger_availability_witness :
    (createInventoryBooking ⟨⟨5, 5, 1, 30⟩, []⟩ 0 1 0 msPerDay 1).1 =
      .ok ⟨1, 1, 4⟩ ∧
    ((⟨1, 1, 4⟩ : CreateResult).remaining =
      (checkInventoryAvailability ([] : List Booking) 0 ⟨5, 5, 1, 30⟩ 0
        msPerDay 1).availableUnits - 1) := by
  have h := create_remaining_reports_ledger_availability ⟨⟨5, 5, 1, 30⟩, []⟩
    0 1 0 msPerDay 1 ⟨1, 1, 4⟩
    (createInventoryBooking ⟨⟨5, 5, 1, 30⟩, []⟩ 0 1 0 msPerDay 1).2 (by rfl)
  exact ⟨rfl, h.1⟩

theorem mem_walkConflicts_aux (unavail : List Int) (co : Int) (n : Nat) :
    ∀ cur : Int, (co - cur).toNat = n → ∀ d : Int,
      (d ∈ walkConflicts unavail cur co ↔
        (cur ≤ d ∧ d < co ∧ d ∈ unavail)) := by
  induction n with
  | zero =>
      intro cur hn d
      rw [walkConflicts, dif_neg (by omega)]
      simp
      omega
  | succ k ih =>
      intro cur hn d
      have hlt : cur < co := by omega
      rw [walkConflicts, dif_pos hlt]
      rw [List.mem_append, ih (cur + 1) (by omega) d]
      by_cases hm : unavail.contains cur = true
      · have hmem : cur ∈ unavail := by simpa using hm
        rw [if_pos hm]
        constructor
        · rintro (hd | ⟨h1, h2, h3⟩)
          · simp only [List.mem_singleton] at hd
            subst hd
            exact ⟨le_refl _, hlt, hmem⟩
          · exact ⟨by omega, h2, h3⟩
        · rintro ⟨h1, h2, h3⟩
          by_cases hdc : d = cur
          · subst hdc
            left
            simp
          · right
            exact ⟨by omega, h2, h3⟩
      · have hmem : cur ∉ unavail := by simpa using hm
        rw [if_neg hm]
        simp only [List.not_mem_nil, false_or]
        constructor
        · rintro ⟨h1, h2, h3⟩
          exact ⟨by omega, h2, h3⟩
        · rintro ⟨h1, h2, h3⟩
          have hdc : d ≠ cur := fun hh => hmem (hh ▸ h3)
          exact ⟨by omega, h2, h3⟩

theorem mem_walkConflicts (unavail : List Int) (cur co d : Int) :
    d ∈ walkConflicts unavail cur co ↔ (cur ≤ d ∧ d < co ∧ d ∈ unavail) :=
  mem_walkConflicts_aux unavail co (co - cur).toNat cur rfl d

/-- Claim C9: the date-range availability check fails with the
invalid-range error exactly when `checkIn ≥ checkOut`; otherwise it reports
as `conflictingDates` exactly the days of the half-open range
`[checkIn, checkOut)` that are in the unavailable-dates set (the check-out
day itself is never examined) and reports available if and only if the
conflict list is empty. -/
theorem range_availability_spec (unavail : List Int) (ci co : Int) :
    (ci ≥ co → checkAvailability unavail ci co =
      .error "Check-out date must be after check-in date") ∧
    (ci < co → ∃ avail : Bool, ∃ cds : List Int,
      checkAvailability unavail ci co = .ok (avail, cds) ∧
      (avail = true ↔ cds = []) ∧
      (∀ d : Int, d ∈ cds ↔ (ci ≤ d ∧ d < co ∧ d ∈ unavail))) := by
  constructor
  · intro h
    rw [checkAvailability, if_pos h]
  · intro h
    refine ⟨(walkConflicts unavail ci co).length == 0,
      walkConflicts unavail ci co, ?_, ?_,
      fun d => mem_walkConflicts unavail ci co d⟩
    · rw [checkAvailability, if_neg (by omega)]
    · rw [beq_iff_eq, List.length_eq_zero]

theorem range_availability_spec_witness :
    checkAvailability [11, 25] 12 10 =
      .error "Check-out date must be after check-in date" ∧
    (∃ avail : Bool, ∃ cds : List Int,
      checkAvailability [11, 25] 10 13 = .ok (avail, cds) ∧
      (avail = true ↔ cds = []) ∧
      (∀ d : Int, d ∈ cds ↔ (10 ≤ d ∧ d < 13 ∧ d ∈ ([11, 25] : List Int)))) := by
  have h1 := range_availability_spec [11, 25] 12 10
  have h2 := range_availability_spec [11, 25] 10 13
  exact ⟨h1.1 (by norm_num), h2.2 (by norm_num)⟩

/-- Claim C10: inventory-aware creation is not atomic on error — whenever
the creation fails at the reserve step (the insufficient-inventory error),
the pending booking created just before has already been appended to the
ledger and is not rolled back; moreover at that point the ledger-based
availability check had reported available while the `availableUnits`
counter was below the requested units. -/
theorem create_not_atomic (st : SystemState) (sid nid : Nat)
    (s e u a r : Int) (st2 : SystemState)
    (h : createInventoryBooking st sid nid s e u =
      (.error (.insufficientInventory a r), st2)) :
    st2.ledger = st.ledger ++ [newInventoryBooking nid sid s e u] ∧
    (newInventoryBooking nid sid s e u).status = .pending ∧
    (checkInventoryAvailability st.ledger sid st.inventory s e u).available =
      true ∧
    st.inventory.availableUnits < u := by
  simp only [createInventoryBooking] at h
  split at h
  · simp at h
  · split at h
    · simp at h
    · rename_i hav
      split at h
      · rename_i a2 r2 heq
        rw [Prod.mk.injEq] at h
        obtain ⟨_, hst⟩ := h
        simp only [updateInventoryAfterBooking] at heq
        split at heq
        · rename_i hlt
          refine ⟨?_, rfl, ?_, hlt⟩
          · rw [← hst]
          · revert hav
            cases (checkInventoryAvailability st.ledger sid st.inventory s e
              u).available <;> simp
        · simp at heq
      · simp at h

theorem create_not_atomic_witness :
    createInventoryBooking ⟨⟨5, 0, 1, 30⟩, []⟩ 0 1 0 msPerDay 1 =
      (.error (.insufficientInventory 0 1),
        ⟨⟨5, 0, 1, 30⟩, [newInventoryBooking 1 0 0 msPerDay 1]⟩) ∧
    (createInventoryBooking
      ⟨⟨5, 0, 1, 30⟩, []⟩ 0 1 0 msPerDay 1).2.ledger =
      [newInventoryBooking 1 0 0 msPerDay 1] ∧
    ((⟨⟨5, 0, 1, 30⟩, []⟩ : SystemState)).inventory.availableUnits < 1 := by
  have h := create_not_atomic ⟨⟨5, 0, 1, 30⟩, []⟩ 0 1 0 msPerDay 1 0 1
    ⟨⟨5, 0, 1, 30⟩, [newInventoryBooking 1 0 0 msPerDay 1]⟩ (by rfl)
  exact ⟨by rfl, by rfl, h.2.2.2⟩

end Foothills
